import Mathlib

/-!
Verification development for the AxiomDeterminist core pipeline
(src/src-tauri/src/axiom_determinist/): dependency graph (dag.rs),
static validator (sandbox.rs), repair loop (reflexion.rs) and
orchestrator (orchestrator.rs), shallowly embedded in Lean.

Conventions of the embedding:
* Rust `String` is Lean `String`; all string primitives used by the code
  (trim, starts_with, ends_with, contains, lines) are re-implemented over
  `List Char` so that every definition evaluates inside the kernel.
  `str::lines` splits on a line feed; the embedding `linesOf` keeps a
  trailing empty segment after a final line feed and keeps a carriage
  return inside the line, which no banned phrase and no claim exercises.
  `str::trim` strips Unicode whitespace; the embedding strips the ASCII
  whitespace characters, the only ones the claims exercise.
* `HashMap` / `HashSet` become association lists / lists.  A `HashMap`'s
  iteration order is unspecified in Rust; the association list realizes
  one deterministic order (insertion order).  Every property proved below
  is either order-insensitive or an evaluation of a concrete input on
  which the Rust iteration order cannot change the observed outcome
  (noted at the theorem).
* `&mut self` methods are state-passing functions; a method returning
  `Result<(), String>` becomes a function returning the new state paired
  with `Option String` (the error), so that "state unchanged on failure"
  is expressible.
-/

namespace Deoxys

/-! ## Character/string primitives (kernel-computable) -/

/-- ASCII whitespace test, standing in for `char::is_whitespace`. -/
def isWS (c : Char) : Bool := c = ' ' || c = '\t' || c = '\n' || c = '\r'

/-- Strip leading and trailing whitespace from a character list. -/
def trimL (cs : List Char) : List Char :=
  ((cs.dropWhile isWS).reverse.dropWhile isWS).reverse

/-- Embedding of `str::trim`. -/
def trimS (s : String) : String := ⟨trimL s.data⟩

/-- Does the character list start with the pattern list? -/
def hasPrefixL : List Char → List Char → Bool
  | [], _ => true
  | _ :: _, [] => false
  | p :: ps, c :: cs => p == c && hasPrefixL ps cs

/-- Embedding of `str::starts_with`. -/
def startsWithS (s pre : String) : Bool := hasPrefixL pre.data s.data

/-- Embedding of `str::ends_with`. -/
def endsWithS (s suf : String) : Bool := hasPrefixL suf.data.reverse s.data.reverse

/-- Does the pattern occur as a contiguous sublist? -/
def hasSubL (pat : List Char) : List Char → Bool
  | [] => pat.isEmpty
  | c :: cs => hasPrefixL pat (c :: cs) || hasSubL pat cs

/-- Embedding of `str::contains` with a string pattern. -/
def strContains (s pat : String) : Bool := hasSubL pat.data s.data

/-- Split a character list at every line feed (semantics of
`str::split('\n')`; see the header note on `str::lines`). -/
def splitNL : List Char → List (List Char)
  | [] => [[]]
  | c :: cs =>
    if c = '\n' then [] :: splitNL cs
    else
      match splitNL cs with
      | [] => [[c]]
      | l :: ls => (c :: l) :: ls

/-- Embedding of `code.lines()` in the validator (dag/sandbox modules). -/
def linesOf (s : String) : List String := (splitNL s.data).map (fun cs => ⟨cs⟩)

/-- A single-quote character as a string (used inside Rust format strings). -/
def sq : String := (Char.ofNat 39).toString

/-! ## Static validator (sandbox.rs) -/

/-- sandbox.rs `ErrorSeverity`. -/
inductive ErrorSeverity
  | Fatal
  | Error
  | Warning
deriving DecidableEq, Repr

/-- sandbox.rs `ErrorType`. -/
inductive ErrorType
  | SterilizationViolation
  | SyntaxError
  | TypeError
  | LintError
  | TestFailure
  | CompilationError
  | EmptyBlock
  | ComplexityThreshold
deriving DecidableEq, Repr

/-- sandbox.rs `ValidationError`. -/
structure ValidationError where
  severity : ErrorSeverity
  message : String
  file : Option String
  line : Option Nat
  column : Option Nat
  error_type : ErrorType
deriving DecidableEq, Repr

/-- sandbox.rs `ValidationWarning`. -/
structure ValidationWarning where
  message : String
  file : Option String
  line : Option Nat
deriving DecidableEq, Repr

/-- sandbox.rs `TestFailure` record. -/
structure TestFailureRec where
  test_name : String
  error_message : String
deriving DecidableEq, Repr

/-- sandbox.rs `TestResults`. -/
structure TestResults where
  total_tests : Nat
  passed : Nat
  failed : Nat
  failures : List TestFailureRec
deriving DecidableEq, Repr

/-- sandbox.rs `ValidationResult`. -/
structure ValidationResult where
  passed : Bool
  errors : List ValidationError
  warnings : List ValidationWarning
  build_output : Option String
  test_results : Option TestResults
deriving DecidableEq, Repr

/-- The banned-pattern table of `HermeticSandbox::check_sterilization`. -/
def bannedPatterns : List (String × ErrorSeverity) :=
  [("TODO", .Fatal), ("FIXME", .Fatal), ("XXX", .Fatal), ("HACK", .Fatal),
   ("NotImplementedError", .Fatal), ("NotImplemented", .Fatal),
   ("omitted for brevity", .Fatal), ("rest of code", .Fatal),
   ("left as an exercise", .Fatal), ("implementation omitted", .Fatal)]

/-- `HermeticSandbox::check_sterilization` (sandbox.rs:137-168): scan every
line for every banned pattern; a match yields a finding with the pattern's
severity and the 1-based line number. -/
def check_sterilization (code : String) : List ValidationError :=
  (linesOf code).enum.flatMap (fun p =>
    bannedPatterns.filterMap (fun q =>
      if strContains p.2 q.1 then
        some { severity := q.2,
               message := "Sterilization violation: Found " ++ sq ++ q.1 ++ sq,
               file := none, line := some (p.1 + 1), column := none,
               error_type := .SterilizationViolation }
      else none))

/-- One step of the delimiter-balance scan of `validate_python`
(counts for parentheses, square brackets, curly braces, as integers). -/
def delimStep (acc : Int × Int × Int) (c : Char) : Int × Int × Int :=
  if c = '(' then (acc.1 + 1, acc.2.1, acc.2.2)
  else if c = ')' then (acc.1 - 1, acc.2.1, acc.2.2)
  else if c = '[' then (acc.1, acc.2.1 + 1, acc.2.2)
  else if c = ']' then (acc.1, acc.2.1 - 1, acc.2.2)
  else if c = Char.ofNat 123 then (acc.1, acc.2.1, acc.2.2 + 1)
  else if c = Char.ofNat 125 then (acc.1, acc.2.1, acc.2.2 - 1)
  else acc

/-- The "expected indented block" scan of `validate_python`
(sandbox.rs:251-272): a line whose trimmed form ends in a colon must be
followed by an indented / blank / comment / def / class line. -/
def colonErrors (lines : List String) : List ValidationError :=
  lines.enum.filterMap (fun p =>
    if endsWithS (trimS p.2) ":" then
      match lines.get? (p.1 + 1) with
      | none => none
      | some next =>
        if !(trimS next) = "" && !startsWithS next "    " && !startsWithS next "\t" &&
           !startsWithS (trimS next) "#" && !startsWithS (trimS next) "def " &&
           !startsWithS (trimS next) "class " then
          some { severity := .Error, message := "Expected indented block after colon",
                 file := none, line := some (p.1 + 2), column := none,
                 error_type := .SyntaxError }
        else none
    else none)

/-- `HermeticSandbox::validate_python` (sandbox.rs:171-275).  The
def/class indentation scan at sandbox.rs:195-214 computes a local flag but
never emits an error, so it is omitted as a no-op. -/
def validate_python (code : String) : List ValidationError :=
  let lines := linesOf code
  let counts := lines.foldl (fun acc line => line.data.foldl delimStep acc) (0, 0, 0)
  (if counts.1 ≠ 0 then
    [{ severity := .Error, message := "Unmatched parentheses detected",
       file := none, line := none, column := none, error_type := .SyntaxError }]
   else []) ++
  (if counts.2.1 ≠ 0 then
    [{ severity := .Error, message := "Unmatched square brackets detected",
       file := none, line := none, column := none, error_type := .SyntaxError }]
   else []) ++
  (if counts.2.2 ≠ 0 then
    [{ severity := .Error, message := "Unmatched curly braces detected",
       file := none, line := none, column := none, error_type := .SyntaxError }]
   else []) ++
  colonErrors lines

/-- `HermeticSandbox::validate_rust` (sandbox.rs:278-294). -/
def validate_rust (code : String) : List ValidationError :=
  if strContains code "unimplemented!()" || strContains code "todo!()" then
    [{ severity := .Fatal, message := "Found unimplemented!() or todo!() macro",
       file := none, line := none, column := none, error_type := .SterilizationViolation }]
  else []

/-- `HermeticSandbox::validate_javascript` (sandbox.rs:297-313). -/
def validate_javascript (code : String) : List ValidationError :=
  if strContains code "// TODO" || strContains code "// FIXME" then
    [{ severity := .Fatal, message := "Found TODO or FIXME comment",
       file := none, line := none, column := none, error_type := .SterilizationViolation }]
  else []

/-- The body scan of `analyze_ast` for one `def` site (sandbox.rs:328-341):
walk the lines after the definition with mutable flags `found_pass` /
`found_other`; returns the pair of flags at loop exit.  The trailing
def/class break of the source loop is kept, although it is unreachable:
a def/class line is caught by the preceding else-if branch. -/
def bodyScan : List String → Bool → Bool × Bool
  | [], fp => (fp, false)
  | l :: rest, fp =>
    let t := trimS l
    if t = "pass" || t = "..." then
      if startsWithS t "def " || startsWithS t "class " then (true, false)
      else bodyScan rest true
    else if !(t = "") && !startsWithS t "#" then (fp, true)
    else
      if startsWithS t "def " || startsWithS t "class " then (fp, false)
      else bodyScan rest fp

/-- `HermeticSandbox::analyze_ast` (sandbox.rs:316-359): for Python, flag a
`def` whose scan found a no-op line and no other body line. -/
def analyze_ast (code lang : String) : List ValidationError :=
  if lang = "python" then
    let lines := linesOf code
    lines.enum.filterMap (fun p =>
      if startsWithS (trimS p.2) "def " then
        let r := bodyScan (lines.drop (p.1 + 1)) false
        if r.1 && !r.2 then
          some { severity := .Fatal,
                 message := "Function contains only " ++ sq ++ "pass" ++ sq ++ " statement",
                 file := none, line := some (p.1 + 1), column := none,
                 error_type := .EmptyBlock }
        else none
      else none)
  else []

/-- The language dispatch of `HermeticSandbox::validate` (sandbox.rs:98-121). -/
def languageErrors (code lang : String) : List ValidationError :=
  if lang = "python" then validate_python code
  else if lang = "rust" then validate_rust code
  else if lang = "javascript" || lang = "typescript" then validate_javascript code
  else
    [{ severity := .Warning, message := "Unknown language: " ++ lang,
       file := none, line := none, column := none, error_type := .LintError }]

/-- Is a finding's severity `Fatal` or `Error`?  (`matches!` test used for
`passed` in sandbox.rs:128.) -/
def isBlocking (e : ValidationError) : Bool :=
  match e.severity with
  | .Fatal => true
  | .Error => true
  | .Warning => false

/-- `HermeticSandbox::validate` (sandbox.rs:89-134): sterilization scan,
language-specific checks, AST scan; `passed` iff no Fatal/Error finding. -/
def validate (code lang : String) : ValidationResult :=
  let errors := check_sterilization code ++ languageErrors code lang ++ analyze_ast code lang
  { passed := errors.all (fun e => !isBlocking e),
    errors := errors, warnings := [], build_output := none, test_results := none }

/-! ## Dependency graph (dag.rs) -/

/-- dag.rs `ModuleType`. -/
inductive ModuleType
  | Python
  | Rust
  | JavaScript
  | TypeScript
  | Config
  | Test
deriving DecidableEq, Repr

/-- dag.rs `Parameter`. -/
structure Parameter where
  name : String
  param_type : Option String
  default : Option String
deriving DecidableEq, Repr

/-- dag.rs `FunctionSignature`. -/
structure FunctionSignature where
  name : String
  parameters : List Parameter
  return_type : Option String
  docstring : Option String
deriving DecidableEq, Repr

/-- dag.rs `ClassSignature`. -/
structure ClassSignature where
  name : String
  methods : List FunctionSignature
  docstring : Option String
deriving DecidableEq, Repr

/-- dag.rs `ConstantSignature`. -/
structure ConstantSignature where
  name : String
  value_type : String
deriving DecidableEq, Repr

/-- dag.rs `InterfaceSpec`. -/
structure InterfaceSpec where
  classes : List ClassSignature
  functions : List FunctionSignature
  constants : List ConstantSignature
deriving DecidableEq, Repr

/-- dag.rs `TestCase`. -/
structure TestCase where
  name : String
  description : String
  expected_behavior : String
deriving DecidableEq, Repr

/-- dag.rs `TestPlan`. -/
structure TestPlan where
  unit_tests : List TestCase
  integration_tests : List TestCase
deriving DecidableEq, Repr

/-- dag.rs `DependencyNode`. -/
structure DependencyNode where
  id : String
  file_path : String
  module_type : ModuleType
  public_interface : InterfaceSpec
  dependencies : List String
  test_plan : Option TestPlan
deriving DecidableEq, Repr

/-- Association-list embedding of the three `HashMap`s of `DependencyGraph`. -/
structure DependencyGraph where
  nodes : List (String × DependencyNode)
  adjacency_list : List (String × List String)
  reverse_adjacency : List (String × List String)
deriving Repr

/-- `HashMap::get`. -/
def alistLookup {α : Type} (m : List (String × α)) (k : String) : Option α :=
  match m with
  | [] => none
  | (k', v) :: rest => if k' = k then some v else alistLookup rest k

/-- `HashMap::insert` (replaces the value at an existing key). -/
def alistInsert {α : Type} (m : List (String × α)) (k : String) (v : α) :
    List (String × α) :=
  match m with
  | [] => [(k, v)]
  | (k', v') :: rest =>
    if k' = k then (k, v) :: rest else (k', v') :: alistInsert rest k v

/-- `map.entry(k).or_insert_with(Vec::new).push(x)`. -/
def alistPush (m : List (String × List String)) (k x : String) :
    List (String × List String) :=
  match m with
  | [] => [(k, [x])]
  | (k', v) :: rest =>
    if k' = k then (k', v ++ [x]) :: rest else (k', v) :: alistPush rest k x

/-- Apply `f` to the value at key `k` when the key is present.  (Models
`map.get_mut(k).unwrap()` mutation; the Rust `unwrap` panics when the key
is absent — every input below keeps the key present.) -/
def alistModify (m : List (String × Nat)) (k : String) (f : Nat → Nat) :
    List (String × Nat) :=
  match m with
  | [] => []
  | (k', v) :: rest =>
    if k' = k then (k', f v) :: rest else (k', v) :: alistModify rest k f

/-- `DependencyGraph::new`. -/
def DependencyGraph.new : DependencyGraph := ⟨[], [], []⟩

/-- All identifiers occurring in adjacency-list values (the only strings a
DFS over the adjacency list can ever push). -/
def adjTargets (adj : List (String × List String)) : List String :=
  (adj.map Prod.snd).flatten

/-- Every string an adjacency lookup can return occurs in `adjTargets`
(a membership fact consumed by the termination-carrying parameters of
`dfsCycle`, hence phrased as a definition). -/
def mem_adjTargets_of_lookup (adj : List (String × List String)) (c y : String)
    (h : y ∈ (alistLookup adj c).getD []) : y ∈ adjTargets adj := by
  induction adj with
  | nil => simp [alistLookup] at h
  | cons p rest ih =>
    simp only [alistLookup] at h
    by_cases hc : p.1 = c
    · simp [hc] at h
      simp [adjTargets]
      exact Or.inl h
    · simp [hc] at h
      have := ih h
      simp [adjTargets] at this ⊢
      exact Or.inr this

/-- The stack-based reachability search inside
`DependencyGraph::would_create_cycle` (dag.rs:190-207).  The list `stack`
has its head at the top (Rust pushes/pops at the vector's end); the
arguments `univ`, `hadj`, `hs` carry the finiteness information needed for
termination and do not influence the computation. -/
def dfsCycle (adj : List (String × List String)) (target : String) (univ : List String)
    (hadj : ∀ x ∈ adjTargets adj, x ∈ univ)
    (visited stack : List String) (hs : ∀ x ∈ stack, x ∈ univ) : Bool :=
  match stack, hs with
  | [], _ => false
  | current :: rest, hs =>
    if hv : current ∈ visited then
      dfsCycle adj target univ hadj visited rest
        (fun x hx => hs x (List.mem_cons_of_mem _ hx))
    else
      if current = target then true
      else
        let visited' := current :: visited
        let nbrs := (alistLookup adj current).getD []
        dfsCycle adj target univ hadj visited'
          ((nbrs.filter (fun d => !(visited'.contains d))).reverse ++ rest)
          (by
            intro x hx
            rcases List.mem_append.mp hx with h1 | h2
            · exact hadj x (mem_adjTargets_of_lookup adj current x
                (List.mem_of_mem_filter (List.mem_reverse.mp h1)))
            · exact hs x (List.mem_cons_of_mem _ h2))
termination_by ((univ.toFinset \ visited.toFinset).card, stack.length)
decreasing_by
  · apply Prod.Lex.right
    simp
  · apply Prod.Lex.left
    apply Finset.card_lt_card
    constructor
    · intro a ha
      simp only [Finset.mem_sdiff, List.mem_toFinset] at ha ⊢
      exact ⟨ha.1, fun hcon => ha.2 (List.mem_cons_of_mem _ hcon)⟩
    · intro hsub
      have hcur : current ∈ univ.toFinset \ visited.toFinset := by
        simp only [Finset.mem_sdiff, List.mem_toFinset]
        exact ⟨hs current (List.mem_cons_self _ _), hv⟩
      have := hsub hcur
      simp only [Finset.mem_sdiff, List.mem_toFinset] at this
      exact this.2 (List.mem_cons_self _ _)

/-- `DependencyGraph::would_create_cycle` (dag.rs:178-210).  The Rust code
returns true as soon as a declared dependency equals the new identifier
while it builds the initial stack; the check is hoisted in front, which
yields the same result, and the initial stack is the dependency list
reversed (the first Rust pop takes the last pushed dependency). -/
def would_create_cycle (g : DependencyGraph) (new_node_id : String)
    (new_deps : List String) : Bool :=
  if new_deps.contains new_node_id then true
  else
    dfsCycle g.adjacency_list new_node_id (new_deps ++ adjTargets g.adjacency_list)
      (fun _ hx => List.mem_append_right _ hx)
      [] new_deps.reverse
      (fun _ hx => List.mem_append_left _ (List.mem_reverse.mp hx))

/-- `DependencyGraph::add_node` (dag.rs:92-113): reject when a cycle would
arise (graph returned unchanged with the error message), otherwise record
the node, its forward adjacency and the reverse edges. -/
def add_node (g : DependencyGraph) (node : DependencyNode) :
    DependencyGraph × Option String :=
  if would_create_cycle g node.id node.dependencies then
    (g, some ("Adding node " ++ node.id ++ " would create a circular dependency"))
  else
    let deps := node.dependencies
    ({ nodes := alistInsert g.nodes node.id node,
       adjacency_list := alistInsert g.adjacency_list node.id deps,
       reverse_adjacency := deps.foldl (fun m d => alistPush m d node.id) g.reverse_adjacency },
     none)

/-- The queue-processing loop of `DependencyGraph::topological_sort`
(dag.rs:140-152), with the queue's front at the list head and an explicit
fuel.  Each Rust loop iteration pops one queue entry; without an in-degree
underflow (where Rust would panic) at most `|nodes| + Σ in-degrees` entries
ever enter the queue, so the fuel passed by `topological_sort` is never
exhausted on the runs the claims exercise. -/
def kahnLoop (rev : List (String × List String)) :
    Nat → List (String × Nat) → List String → List String → List String
  | 0, _, _, result => result
  | _ + 1, _, [], result => result
  | fuel + 1, ind, node_id :: qrest, result =>
    let result := result ++ [node_id]
    match alistLookup rev node_id with
    | none => kahnLoop rev fuel ind qrest result
    | some dependents =>
      let s := dependents.foldl
        (fun (p : List (String × Nat) × List String) dep =>
          let ind' := alistModify p.1 dep (fun d => d - 1)
          if (alistLookup ind' dep).getD 1 = 0 then (ind', p.2 ++ [dep])
          else (ind', p.2))
        (ind, qrest)
      kahnLoop rev fuel s.1 s.2 result

/-- `DependencyGraph::topological_sort` (dag.rs:116-160).  In-degrees are
initialized to zero over the node keys and then, for every adjacency value
list, incremented **at the listed dependency** (dag.rs:125-129, the
increment `*in_degree.get_mut(dep).unwrap() += 1` lands on `dep`, not on
the node whose list is being walked); the zero-degree nodes seed the
queue; popping a node decrements the degrees of its reverse-adjacency
entries.  Error when not all nodes were emitted. -/
def topological_sort (g : DependencyGraph) : Except String (List String) :=
  let in0 : List (String × Nat) := g.nodes.map (fun p => (p.1, 0))
  let ind := (g.adjacency_list.map Prod.snd).flatten.foldl
    (fun m d => alistModify m d (fun x => x + 1)) in0
  let queue0 := (ind.filter (fun p => p.2 = 0)).map Prod.fst
  let fuel := g.nodes.length + (g.reverse_adjacency.map (fun p => p.2.length)).sum + 1
  let result := kahnLoop g.reverse_adjacency fuel ind queue0 []
  if result.length = g.nodes.length then Except.ok result
  else Except.error "Circular dependency detected in graph"

/-- `DependencyGraph::get_reachable_context` (dag.rs:163-175): the public
interfaces of the direct dependencies that are present, in declared order. -/
def get_reachable_context (g : DependencyGraph) (node_id : String) :
    List InterfaceSpec :=
  match alistLookup g.nodes node_id with
  | none => []
  | some node =>
    node.dependencies.filterMap (fun d =>
      (alistLookup g.nodes d).map (fun n => n.public_interface))

/-! ## Repair loop (reflexion.rs) -/

/-- reflexion.rs `RepairContext`. -/
structure RepairContext where
  iteration : Nat
  original_code : String
  validation_result : ValidationResult
  error_analysis : String
  repaired_code : Option String
  success : Bool
deriving DecidableEq, Repr

/-- reflexion.rs `ReflexionLoop` state. -/
structure ReflexionLoop where
  max_retries : Nat
  current_iteration : Nat
  repair_history : List RepairContext
deriving DecidableEq, Repr

/-- `ReflexionLoop::new`. -/
def ReflexionLoop.new (max_retries : Nat) : ReflexionLoop := ⟨max_retries, 0, []⟩

/-- The Debug rendering (`{:?}`) of an `ErrorType`. -/
def errorTypeName : ErrorType → String
  | .SterilizationViolation => "SterilizationViolation"
  | .SyntaxError => "SyntaxError"
  | .TypeError => "TypeError"
  | .LintError => "LintError"
  | .TestFailure => "TestFailure"
  | .CompilationError => "CompilationError"
  | .EmptyBlock => "EmptyBlock"
  | .ComplexityThreshold => "ComplexityThreshold"

/-- The severity tag used by `analyze_errors`. -/
def severityTag : ErrorSeverity → String
  | .Fatal => "FATAL"
  | .Error => "ERROR"
  | .Warning => "WARNING"

/-- `ReflexionLoop::analyze_errors` (reflexion.rs:86-111). -/
def analyze_errors (vr : ValidationResult) : String :=
  if vr.errors.isEmpty then "No errors found"
  else
    vr.errors.foldl (fun acc e =>
      let acc := acc ++ "[" ++ severityTag e.severity ++ "] " ++
        errorTypeName e.error_type ++ ": " ++ e.message ++ "\n"
      match e.line with
      | some l => acc ++ "  Location: Line " ++ toString l ++ "\n"
      | none => acc)
      "Validation Errors:\n"

/-- `detect_language` (reflexion.rs:155-166). -/
def detect_language (code : String) : String :=
  if strContains code "fn " || strContains code "impl " || strContains code "struct " then
    "rust"
  else if strContains code "def " || strContains code "import " || strContains code "class " then
    "python"
  else if strContains code "function " || strContains code "const " || strContains code "let " then
    "javascript"
  else "unknown"

/-- First literal segment of the repair-prompt template (reflexion.rs:122-127,
up to the language placeholder). -/
def promptHead : String :=
  "\n###_STERILIZATION_PROTOCOL_v1_###\n\nThe following code failed the sterilization check:\n\n```"

/-- Middle literal segment (between the code and error-summary placeholders). -/
def promptMid : String := "\n```\n\nError Details:\n"

/-- Final literal segment (after the error-summary placeholder). -/
def promptTail : String :=
  "\n\nYou must fix ALL errors. Do not remove comments or TODOs - implement the missing logic.\nEvery function must contain complete, executable code.\nCode containing placeholders will trigger a fatal build error.\n\nGenerate the complete, fixed code:\n"

/-- `ReflexionLoop::generate_repair_prompt` (reflexion.rs:114-144): the
template instantiated with the detected language, the failing code and the
error digest.  (The method ignores the loop's own state.) -/
def generate_repair_prompt (code : String) (vr : ValidationResult) : String :=
  promptHead ++ detect_language code ++ "\n" ++ code ++ promptMid ++
    analyze_errors vr ++ promptTail

/-- Outcome of one run of the repair loop, instrumented with the counts of
calls the run made to the two collaborator functions. -/
structure ExecOut where
  result : Except String String
  finalIter : Nat
  history : List RepairContext
  vCalls : Nat
  rCalls : Nat
deriving Repr

/-- The loop body of `ReflexionLoop::execute` (reflexion.rs:45-82), carrying
the struct fields `current_iteration` / `repair_history` as `iter` / `hist`
and the instrumentation counters `vc` / `rc`.  Each pass increments the
counter, fails once it exceeds the budget, otherwise validates, records a
`RepairContext`, returns the code on a pass, and otherwise feeds the
repair function's output into the next pass. -/
def executeLoop (maxR : Nat) (validateFn : String → ValidationResult)
    (repairFn : String → ValidationResult → String)
    (iter : Nat) (hist : List RepairContext) (vc rc : Nat) (code : String) : ExecOut :=
  let iter' := iter + 1
  if iter' > maxR then
    ⟨Except.error ("Max retries (" ++ toString maxR ++ ") exceeded. Failed to repair code."),
     iter', hist, vc, rc⟩
  else
    let vr := validateFn code
    if vr.passed then
      ⟨Except.ok code, iter',
       hist ++ [⟨iter', code, vr, analyze_errors vr, some code, true⟩], vc + 1, rc⟩
    else
      let repaired := repairFn code vr
      executeLoop maxR validateFn repairFn iter'
        (hist ++ [⟨iter', code, vr, analyze_errors vr, some repaired, false⟩])
        (vc + 1) (rc + 1) repaired
termination_by maxR - iter
decreasing_by omega

/-- `ReflexionLoop::execute` as a state transformer on the loop struct:
the run starts from the struct's stored counter and history and stores the
final ones back (the method never resets them). -/
def ReflexionLoop.execute (l : ReflexionLoop) (validateFn : String → ValidationResult)
    (repairFn : String → ValidationResult → String) (code : String) :
    ExecOut × ReflexionLoop :=
  let out := executeLoop l.max_retries validateFn repairFn
    l.current_iteration l.repair_history 0 0 code
  (out, { l with current_iteration := out.finalIter, repair_history := out.history })

/-! ## Orchestrator (orchestrator.rs)

The agent collaborators used by `Orchestrator::execute` live in a module
(`agents.rs`) that is not part of the available sources; they are external
collaborators per the spec and enter the embedding as parameters or as
spec-modelled definitions, marked below. -/

/-- orchestrator.rs `GeneratedFile`. -/
structure GeneratedFile where
  path : String
  content : String
  language : String
  validation_passed : Bool
deriving DecidableEq, Repr

/-- orchestrator.rs `OrchestrationResult`. -/
structure OrchestrationResult where
  success : Bool
  generated_files : List GeneratedFile
  total_iterations : Nat
  validation_passed : Bool
  errors : List String
deriving DecidableEq, Repr

/-- Modelled from the spec: one entry of the `LibrarianAgent`'s interface
index (`agents.rs` is absent); `index_file(path, interface, dependencies)`
records the triple for use as context by later units (spec §4.5.f). -/
structure LibEntry where
  path : String
  interface : InterfaceSpec
  dependencies : List String
deriving DecidableEq, Repr

/-- The mutable state `Orchestrator::execute` threads through the unit loop:
the shared reflexion loop (a field of `Orchestrator`, orchestrator.rs:34),
the librarian's index, and the accumulators of the loop body. -/
structure OrchState where
  reflexion : ReflexionLoop
  libIndex : List LibEntry
  files : List GeneratedFile
  totalIters : Nat
  errs : List String
deriving Repr

/-- The language string chosen for a node (orchestrator.rs:72-78). -/
def moduleLang : ModuleType → String
  | .Python => "python"
  | .Rust => "rust"
  | .JavaScript => "javascript"
  | .TypeScript => "typescript"
  | _ => "unknown"

/-- The repair collaborator the orchestrator passes to the reflexion loop
(orchestrator.rs:83-86): it returns the repair prompt itself as the next
candidate. -/
def orchestratorRepair : String → ValidationResult → String :=
  fun code validation => generate_repair_prompt code validation

/-- The body of the per-unit loop of `Orchestrator::execute`
(orchestrator.rs:61-113).  `genCode` stands for the external
`BuilderAgent::generate_code` collaborator; the context is computed by
`get_reachable_context` (modelled from the spec:
`LibrarianAgent::get_pruned_context` returns the direct-dependency
interfaces, spec §4.5.a) and the validator is the static validator
(modelled from the spec: `AuditorAgent::validate` is the Static Validator,
spec §4.5.c).  On a repair-loop failure the Rust `continue` skips the
iteration count, the generated-file record and the librarian indexing. -/
def orchStep (dag : DependencyGraph)
    (genCode : DependencyNode → List InterfaceSpec → Except String String)
    (st : OrchState) (node_id : String) : Except String OrchState :=
  match alistLookup dag.nodes node_id with
  | none => Except.error ("Node " ++ node_id ++ " not found in DAG")
  | some node =>
    let context := get_reachable_context dag node_id
    match genCode node context with
    | Except.error e => Except.error e
    | Except.ok initial_code =>
      let language := moduleLang node.module_type
      let run := st.reflexion.execute (fun c => validate c language) orchestratorRepair
        initial_code
      let st := { st with reflexion := run.2 }
      match run.1.result with
      | Except.error e =>
        Except.ok { st with errs := st.errs ++ ["Failed to repair " ++ node_id ++ ": " ++ e] }
      | Except.ok final_code =>
        let fv := validate final_code language
        Except.ok { st with
          totalIters := st.totalIters + run.2.current_iteration,
          files := st.files ++
            [⟨node.file_path, final_code, language, fv.passed⟩],
          libIndex := st.libIndex ++
            [⟨node.file_path, node.public_interface, node.dependencies⟩] }

/-- `Orchestrator::execute` (orchestrator.rs:49-125) for an
`Orchestrator::new(max_retries)` instance.  The planning collaborator
(`ArchitectAgent::generate_dag`) is external; its produced graph enters as
the `dag` argument.  Returns the `OrchestrationResult` together with the
final orchestrator state so the librarian index is observable. -/
def orchestrator_execute (dag : DependencyGraph)
    (genCode : DependencyNode → List InterfaceSpec → Except String String)
    (max_retries : Nat) : Except String (OrchestrationResult × OrchState) :=
  match topological_sort dag with
  | Except.error e => Except.error e
  | Except.ok order =>
    match order.foldlM (orchStep dag genCode) ⟨ReflexionLoop.new max_retries, [], [], 0, []⟩ with
    | Except.error e => Except.error e
    | Except.ok st =>
      let validation_passed := st.files.all (fun f => f.validation_passed)
      Except.ok
        ({ success := validation_passed && st.errs.isEmpty,
           generated_files := st.files,
           total_iterations := st.totalIters,
           validation_passed := validation_passed,
           errors := st.errs }, st)

/-! ## Declarative edge relation of the graph -/

/-- One edge step along the stored adjacency lists: `y` is one of the
declared dependencies recorded for `x`.  `Relation.ReflTransGen (stepRel adj)`
is then "reaches through existing edges". -/
def stepRel (adj : List (String × List String)) (x y : String) : Prop :=
  y ∈ (alistLookup adj x).getD []

instance (adj : List (String × List String)) (x y : String) :
    Decidable (stepRel adj x y) := by
  unfold stepRel
  infer_instance

/-! ## Concrete instances used by the theorems below -/

/-- The empty public interface. -/
def emptyIface : InterfaceSpec := ⟨[], [], []⟩

/-- A unit with no dependencies. -/
def nodeA : DependencyNode := ⟨"a", "a.py", ModuleType.Python, emptyIface, [], none⟩

/-- A unit depending on `nodeA`. -/
def nodeB : DependencyNode := ⟨"b", "b.py", ModuleType.Python, emptyIface, ["a"], none⟩

/-- The graph after inserting `nodeA` into the empty graph. -/
def gA : DependencyGraph := (add_node DependencyGraph.new nodeA).1

/-- The graph after further inserting `nodeB` (the acyclic chain a ← b). -/
def gAB : DependencyGraph := (add_node gA nodeB).1

/-- The literal value of `gAB` (established by `gAB_eq` below). -/
def gABLit : DependencyGraph :=
  ⟨[("a", nodeA), ("b", nodeB)], [("a", []), ("b", ["a"])], [("a", ["b"])]⟩

/-- A graph already holding a unit `a` that depends on a yet-missing `b`. -/
def gPending : DependencyGraph :=
  ⟨[("a", ⟨"a", "a.py", ModuleType.Python, emptyIface, ["b"], none⟩)],
   [("a", ["b"])], [("b", ["a"])]⟩

/-- A unit `b` whose insertion into `gPending` would close the cycle a ↔ b. -/
def nodeBCycle : DependencyNode := ⟨"b", "b.py", ModuleType.Python, emptyIface, ["a"], none⟩

/-- An always-passing validation outcome. -/
def passVR : ValidationResult := ⟨true, [], [], none, none⟩

/-- An always-failing validation outcome (no findings, `passed = false`). -/
def failVR : ValidationResult := ⟨false, [], [], none, none⟩

/-- A validate collaborator that always passes. -/
def vPass : String → ValidationResult := fun _ => passVR

/-- A validate collaborator that never passes. -/
def vFail : String → ValidationResult := fun _ => failVR

/-- A repair collaborator returning the code unchanged. -/
def rId : String → ValidationResult → String := fun c _ => c

/-- Python unit constructor for the orchestrator scenario. -/
def mkUnit (i p : String) : DependencyNode := ⟨i, p, ModuleType.Python, emptyIface, [], none⟩

/-- Three independent python units, as the planning collaborator would
return them (no edges, so the topological order is the key order). -/
def dag3 : DependencyGraph :=
  ⟨[("A", mkUnit "A" "a.py"), ("B", mkUnit "B" "b.py"), ("C", mkUnit "C" "c.py")],
   [("A", []), ("B", []), ("C", [])], []⟩

/-- A generation collaborator giving unit B a placeholder-carrying
candidate and every other unit a clean one. -/
def gen3 : DependencyNode → List InterfaceSpec → Except String String :=
  fun node _ => Except.ok (if node.id = "B" then "TODO" else "x = 1")

/-! ## General lemmas -/

/-- If the pattern occurs in the right part of an append it occurs in the whole. -/
theorem hasSubL_append_right (pat xs ys : List Char) (h : hasSubL pat ys = true) :
    hasSubL pat (xs ++ ys) = true := by
  induction xs with
  | nil => simpa using h
  | cons x xs ih =>
    simp only [List.cons_append, hasSubL, Bool.or_eq_true]
    exact Or.inr ih

/-- `strContains` is preserved when text is prepended. -/
theorem strContains_append_right (a b pat : String) (h : strContains b pat = true) :
    strContains (a ++ b) pat = true := by
  unfold strContains at h ⊢
  rw [String.data_append]
  exact hasSubL_append_right _ _ _ h

/-- Every entry of the banned-pattern table carries Fatal severity. -/
theorem bannedPatterns_all_fatal : ∀ p ∈ bannedPatterns, p.2 = ErrorSeverity.Fatal := by
  decide

/-- A line whose text matches a banned pattern contributes its sterilization
finding, tagged with the 1-based line number. -/
theorem check_sterilization_mem (code pat : String) (sev : ErrorSeverity) (n : Nat)
    (l : String) (hpat : (pat, sev) ∈ bannedPatterns)
    (hline : (linesOf code).get? n = some l)
    (hmatch : strContains l pat = true) :
    ({ severity := sev,
       message := "Sterilization violation: Found " ++ sq ++ pat ++ sq,
       file := none, line := some (n + 1), column := none,
       error_type := .SterilizationViolation } : ValidationError) ∈
      check_sterilization code := by
  unfold check_sterilization
  rw [List.mem_flatMap]
  refine ⟨(n, l), ?_, ?_⟩
  · rw [List.mk_mem_enum_iff_getElem?]
    rwa [List.get?_eq_getElem?] at hline
  · rw [List.mem_filterMap]
    exact ⟨(pat, sev), hpat, by simp [hmatch]⟩

/-- C8: for every input text and language, a line (1-based index `n + 1`)
matching a banned phrase yields a Fatal placeholder-violation finding
carrying that line number among the validator's findings, and the result's
`passed` flag is false.  Instantiated at line 3 and the phrase TODO by
`C8_witness`. -/
theorem C8_banned_phrase_line_finding (code lang pat : String) (sev : ErrorSeverity)
    (n : Nat) (l : String) (hpat : (pat, sev) ∈ bannedPatterns)
    (hline : (linesOf code).get? n = some l)
    (hmatch : strContains l pat = true) :
    (∃ e ∈ (validate code lang).errors,
        e.severity = ErrorSeverity.Fatal ∧
        e.error_type = ErrorType.SterilizationViolation ∧
        e.line = some (n + 1)) ∧
      (validate code lang).passed = false := by
  have hsev : sev = ErrorSeverity.Fatal := bannedPatterns_all_fatal (pat, sev) hpat
  subst hsev
  have hmem := check_sterilization_mem code pat _ n l hpat hline hmatch
  have herr : (validate code lang).errors =
      check_sterilization code ++ languageErrors code lang ++ analyze_ast code lang := rfl
  have hmem' := List.mem_append_left (analyze_ast code lang)
    (List.mem_append_left (languageErrors code lang) hmem)
  rw [← herr] at hmem'
  constructor
  · exact ⟨_, hmem', rfl, rfl, rfl⟩
  · have hpassed : (validate code lang).passed =
        (validate code lang).errors.all (fun e => !isBlocking e) := rfl
    rw [hpassed, List.all_eq_false]
    exact ⟨_, hmem', by simp [isBlocking]⟩

/-- Witness for C8: the phrase TODO on (1-based) line 3 produces a Fatal
placeholder-violation finding at line 3 and a failing outcome. -/
theorem C8_witness :
    (∃ e ∈ (validate "a\nb\ncc TODO dd" "python").errors,
        e.severity = ErrorSeverity.Fatal ∧
        e.error_type = ErrorType.SterilizationViolation ∧
        e.line = some 3) ∧
      (validate "a\nb\ncc TODO dd" "python").passed = false :=
  C8_banned_phrase_line_finding "a\nb\ncc TODO dd" "python" "TODO"
    ErrorSeverity.Fatal 2 "cc TODO dd" (by decide) (by decide) (by decide)

/-- Helper for C10: when every listed dependency is present, the
interface collection is exactly the per-dependency map. -/
theorem filterMap_interfaces (g : DependencyGraph) (f : String → DependencyNode) :
    ∀ l : List String, (∀ d ∈ l, alistLookup g.nodes d = some (f d)) →
      l.filterMap (fun d => (alistLookup g.nodes d).map (fun n => n.public_interface)) =
        l.map (fun d => (f d).public_interface) := by
  intro l
  induction l with
  | nil => intro _; rfl
  | cons a rest ih =>
    intro h
    simp only [List.filterMap_cons, List.map_cons, h a (List.mem_cons_self a rest),
      Option.map_some']
    rw [ih (fun d hd => h d (List.mem_cons_of_mem a hd))]

/-- C10: for a unit present in the graph whose declared dependencies are
all present, the reachable context is exactly the declared dependencies'
public interfaces in declared order (hence `len(dependencies)` entries and
nothing transitive); for an unknown unit it is empty. -/
theorem C10_direct_dependency_context (g : DependencyGraph) (node_id : String) :
    (∀ (node : DependencyNode) (f : String → DependencyNode),
        alistLookup g.nodes node_id = some node →
        (∀ d ∈ node.dependencies, alistLookup g.nodes d = some (f d)) →
        get_reachable_context g node_id =
          node.dependencies.map (fun d => (f d).public_interface)) ∧
      (alistLookup g.nodes node_id = none → get_reachable_context g node_id = []) := by
  constructor
  · intro node f hnode hdeps
    unfold get_reachable_context
    rw [hnode]
    exact filterMap_interfaces g f node.dependencies hdeps
  · intro hnone
    unfold get_reachable_context
    rw [hnone]

/-- Witness for C10 on the two-node chain: unit b's context is exactly
its single direct dependency's interface; an unknown unit yields none. -/
theorem C10_witness :
    get_reachable_context gABLit "b" = [nodeA.public_interface] ∧
      get_reachable_context gABLit "zz" = [] := by
  constructor
  · have h := (C10_direct_dependency_context gABLit "b").1 nodeB (fun _ => nodeA)
      (by decide) (by decide)
    simpa [nodeB] using h
  · exact (C10_direct_dependency_context gABLit "zz").2 (by decide)

/-! ## Repair-loop theorems -/

/-- Shape of a run whose validate collaborator never passes: starting
`k` iterations below the budget, the run errors out after exactly `k`
further validate calls and `k` further repair calls, ending with the
counter one above the budget. -/
theorem executeLoop_never_pass (maxR : Nat) (v : String → ValidationResult)
    (r : String → ValidationResult → String) (hv : ∀ c, (v c).passed = false) :
    ∀ (k iter : Nat) (hist : List RepairContext) (vc rc : Nat) (code : String),
      iter + k = maxR →
      (executeLoop maxR v r iter hist vc rc code).result =
          Except.error ("Max retries (" ++ toString maxR ++ ") exceeded. Failed to repair code.") ∧
        (executeLoop maxR v r iter hist vc rc code).vCalls = vc + k ∧
        (executeLoop maxR v r iter hist vc rc code).rCalls = rc + k ∧
        (executeLoop maxR v r iter hist vc rc code).finalIter = maxR + 1 := by
  intro k
  induction k with
  | zero =>
    intro iter hist vc rc code hk
    rw [executeLoop]
    have hgt : iter + 1 > maxR := by omega
    rw [if_pos hgt]
    refine ⟨rfl, rfl, rfl, ?_⟩
    show iter + 1 = maxR + 1
    omega
  | succ k ih =>
    intro iter hist vc rc code hk
    rw [executeLoop]
    have hgt : ¬ iter + 1 > maxR := by omega
    simp only [if_neg hgt, hv code]
    rw [if_neg (by decide : ¬ (false = true))]
    have h := ih (iter + 1)
      (hist ++ [⟨iter + 1, code, v code, analyze_errors (v code),
        some (r code (v code)), false⟩])
      (vc + 1) (rc + 1) (r code (v code)) (by omega)
    refine ⟨h.1, ?_, ?_, h.2.2.2⟩
    · have := h.2.1
      omega
    · have := h.2.2.1
      omega

/-- C3 (amended): with a validate collaborator that never passes and a
retry budget of `N`, the run fails with the max-retries error after
exactly `N` validate calls and `N` repair calls — never more.  (The
as-written claim expected `N + 1` validate calls; see
`C3_counterexample`.) -/
theorem C3_exhaustion_call_counts (N : Nat) (v : String → ValidationResult)
    (r : String → ValidationResult → String) (code : String)
    (hv : ∀ c, (v c).passed = false) :
    (executeLoop N v r 0 [] 0 0 code).result =
        Except.error ("Max retries (" ++ toString N ++ ") exceeded. Failed to repair code.") ∧
      (executeLoop N v r 0 [] 0 0 code).vCalls = N ∧
      (executeLoop N v r 0 [] 0 0 code).rCalls = N := by
  have h := executeLoop_never_pass N v r hv N 0 [] 0 0 code (by omega)
  exact ⟨h.1, by simpa using h.2.1, by simpa using h.2.2.1⟩

/-- Witness for C3: budget 1, never-passing validate — error result with
one validate call and one repair call. -/
theorem C3_witness :
    (executeLoop 1 vFail rId 0 [] 0 0 "x").result =
        Except.error ("Max retries (" ++ toString 1 ++ ") exceeded. Failed to repair code.") ∧
      (executeLoop 1 vFail rId 0 [] 0 0 "x").vCalls = 1 ∧
      (executeLoop 1 vFail rId 0 [] 0 0 "x").rCalls = 1 :=
  C3_exhaustion_call_counts 1 vFail rId "x" (fun _ => rfl)

/-- Counterexample to C3 as written: with budget `N = 1` and a validate
collaborator that never passes, the loop makes exactly 1 validate call,
not `N + 1 = 2` — the counter is incremented and checked before the
iteration's validate call, so the budget bounds the validate calls by `N`. -/
theorem C3_counterexample :
    ¬ ((executeLoop 1 vFail rId 0 [] 0 0 "x").vCalls = 2) := by
  simp [executeLoop, vFail, failVR, rId]

/-- C7 (amended): for a retry budget of at least 1, when validation
passes on the first call the run returns the original code unchanged,
the final iteration count is 1, and the repair collaborator is never
called.  (The as-written claim allowed budget 0; see `C7_counterexample`.) -/
theorem C7_first_pass_returns_original (maxR : Nat) (v : String → ValidationResult)
    (r : String → ValidationResult → String) (code : String)
    (hmax : 1 ≤ maxR) (hpass : (v code).passed = true) :
    (executeLoop maxR v r 0 [] 0 0 code).result = Except.ok code ∧
      (executeLoop maxR v r 0 [] 0 0 code).finalIter = 1 ∧
      (executeLoop maxR v r 0 [] 0 0 code).rCalls = 0 ∧
      (executeLoop maxR v r 0 [] 0 0 code).vCalls = 1 := by
  rw [executeLoop]
  have hgt : ¬ 0 + 1 > maxR := by omega
  simp only [if_neg hgt, hpass, if_pos rfl]
  exact ⟨rfl, rfl, rfl, rfl⟩

/-- Witness for C7: budget 1, always-passing validate, code "hello". -/
theorem C7_witness :
    (executeLoop 1 vPass rId 0 [] 0 0 "hello").result = Except.ok "hello" ∧
      (executeLoop 1 vPass rId 0 [] 0 0 "hello").finalIter = 1 ∧
      (executeLoop 1 vPass rId 0 [] 0 0 "hello").rCalls = 0 ∧
      (executeLoop 1 vPass rId 0 [] 0 0 "hello").vCalls = 1 :=
  C7_first_pass_returns_original 1 vPass rId "hello" (by omega) rfl

/-- Counterexample to C7 as written: with retry budget 0 the loop fails
before its first validate call even though the validate collaborator
would pass, so the original code is not returned. -/
theorem C7_counterexample :
    ¬ ((executeLoop 0 vPass rId 0 [] 0 0 "x").result = Except.ok "x") := by
  rw [executeLoop]
  simp

/-- C2: the loop's counter and history are struct fields that `execute`
never resets.  On a fresh `ReflexionLoop::new(1)` a run with an
always-passing validate succeeds and leaves `current_iteration = 1` and a
non-empty history; a second run on the same loop value then starts from
that stale state and immediately fails with the max-retries error even
though its validate collaborator passes — the second invocation neither
starts at zero nor enjoys the full budget.  This is the state the
orchestrator shares across units (orchestrator.rs:34, 44, 80). -/
theorem C2_loop_state_persists_across_runs :
    (((ReflexionLoop.new 1).execute vPass rId "a").1.result = Except.ok "a") ∧
      (((ReflexionLoop.new 1).execute vPass rId "a").2.current_iteration = 1) ∧
      (((ReflexionLoop.new 1).execute vPass rId "a").2.repair_history ≠ []) ∧
      ((((ReflexionLoop.new 1).execute vPass rId "a").2.execute vPass rId "b").1.result =
        Except.error ("Max retries (" ++ toString 1 ++ ") exceeded. Failed to repair code.")) := by
  refine ⟨?_, ?_, ?_, ?_⟩ <;>
    simp [ReflexionLoop.execute, ReflexionLoop.new, executeLoop, vPass, passVR]

/-- The literal tail of the repair prompt contains the phrase TODO. -/
theorem promptTail_contains_todo : strContains promptTail "TODO" = true := by decide

/-- Every repair prompt contains the banned phrase TODO (it appears in the
template's fixed final segment). -/
theorem generate_repair_prompt_contains_todo (code : String) (vr : ValidationResult) :
    strContains (generate_repair_prompt code vr) "TODO" = true := by
  unfold generate_repair_prompt
  exact strContains_append_right _ _ _ promptTail_contains_todo

/-- C5: in the orchestrator's instantiation of the repair loop the repair
collaborator is `generate_repair_prompt` itself, so whenever the current
candidate fails validation the next candidate fed back into validation is
exactly the human-readable repair-prompt string built from the failing
code and its validation outcome; that string always contains the phrase
TODO, which is itself on the banned-pattern list. -/
theorem C5_repair_prompt_is_next_candidate (maxR : Nat)
    (v : String → ValidationResult) (iter : Nat) (hist : List RepairContext)
    (vc rc : Nat) (code : String)
    (hiter : iter + 1 ≤ maxR) (hfail : (v code).passed = false) :
    (executeLoop maxR v orchestratorRepair iter hist vc rc code =
        executeLoop maxR v orchestratorRepair (iter + 1)
          (hist ++ [⟨iter + 1, code, v code, analyze_errors (v code),
            some (generate_repair_prompt code (v code)), false⟩])
          (vc + 1) (rc + 1) (generate_repair_prompt code (v code))) ∧
      strContains (generate_repair_prompt code (v code)) "TODO" = true ∧
      ("TODO", ErrorSeverity.Fatal) ∈ bannedPatterns := by
  refine ⟨?_, generate_repair_prompt_contains_todo code (v code), by decide⟩
  conv =>
    lhs
    rw [executeLoop]
  have hgt : ¬ iter + 1 > maxR := by omega
  simp only [if_neg hgt, hfail]
  rw [if_neg (by decide : ¬ (false = true))]
  rfl

/-- Witness for C5: budget 2, never-passing validate, initial code "x". -/
theorem C5_witness :
    (executeLoop 2 vFail orchestratorRepair 0 [] 0 0 "x" =
        executeLoop 2 vFail orchestratorRepair 1
          [⟨1, "x", vFail "x", analyze_errors (vFail "x"),
            some (generate_repair_prompt "x" (vFail "x")), false⟩]
          1 1 (generate_repair_prompt "x" (vFail "x"))) ∧
      strContains (generate_repair_prompt "x" (vFail "x")) "TODO" = true ∧
      ("TODO", ErrorSeverity.Fatal) ∈ bannedPatterns := by
  have h := C5_repair_prompt_is_next_candidate 2 vFail 0 [] 0 0 "x" (by omega) rfl
  simpa using h

/-! ## Cycle-rejection theorems (C6) -/

/-- A list of identifiers closed under adjacency steps contains every
identifier reachable from one of its members. -/
theorem reach_stays_in_closed (adj : List (String × List String)) (V : List String)
    (hcl : ∀ v ∈ V, ∀ nb ∈ (alistLookup adj v).getD [], nb ∈ V)
    (x y : String) (hx : x ∈ V) (hxy : Relation.ReflTransGen (stepRel adj) x y) :
    y ∈ V := by
  induction hxy with
  | refl => exact hx
  | tail _ hbc ih => exact hcl _ ih _ hbc

/-- Completeness invariant of the reachability search: when `dfsCycle`
answers false and the visited list is target-free and neighbor-closed
into `visited ∪ stack`, then no member of the stack or of the visited
list reaches the target along adjacency edges. -/
theorem dfsCycle_false_no_reach (adj : List (String × List String)) (target : String)
    (univ : List String) (hadj : ∀ x ∈ adjTargets adj, x ∈ univ)
    (visited stack : List String) (hs : ∀ x ∈ stack, x ∈ univ)
    (hfalse : dfsCycle adj target univ hadj visited stack hs = false)
    (hvis : ∀ v ∈ visited, v ≠ target ∧
      ∀ nb ∈ (alistLookup adj v).getD [], nb ∈ visited ∨ nb ∈ stack) :
    ∀ x, (x ∈ stack ∨ x ∈ visited) → ¬ Relation.ReflTransGen (stepRel adj) x target := by
  cases stack with
  | nil =>
    intro x hx hreach
    rcases hx with hx | hx
    · exact absurd hx (List.not_mem_nil x)
    · have hcl : ∀ v ∈ visited, ∀ nb ∈ (alistLookup adj v).getD [], nb ∈ visited := by
        intro v hv nb hnb
        rcases (hvis v hv).2 nb hnb with h | h
        · exact h
        · exact absurd h (List.not_mem_nil nb)
      have hmem := reach_stays_in_closed adj visited hcl x target hx hreach
      exact (hvis target hmem).1 rfl
  | cons current rest =>
    rw [dfsCycle] at hfalse
    by_cases hv : current ∈ visited
    · simp only [dif_pos hv] at hfalse
      have ih := dfsCycle_false_no_reach adj target univ hadj visited rest
        (fun x hx => hs x (List.mem_cons_of_mem _ hx)) hfalse (by
          intro v hvv
          refine ⟨(hvis v hvv).1, ?_⟩
          intro nb hnb
          rcases (hvis v hvv).2 nb hnb with h | h
          · exact Or.inl h
          · rcases List.mem_cons.mp h with h | h
            · subst h
              exact Or.inl hv
            · exact Or.inr h)
      intro x hx hreach
      rcases hx with hx | hx
      · rcases List.mem_cons.mp hx with h | h
        · subst h
          exact ih x (Or.inr hv) hreach
        · exact ih x (Or.inl h) hreach
      · exact ih x (Or.inr hx) hreach
    · by_cases ht : current = target
      · simp only [dif_neg hv, if_pos ht] at hfalse
        exact absurd hfalse (by decide)
      · simp only [dif_neg hv, if_neg ht] at hfalse
        have ih := dfsCycle_false_no_reach adj target univ hadj (current :: visited)
          ((((alistLookup adj current).getD []).filter
            (fun d => !((current :: visited).contains d))).reverse ++ rest)
          (by
            intro x hx
            rcases List.mem_append.mp hx with h1 | h2
            · exact hadj x (mem_adjTargets_of_lookup adj current x
                (List.mem_of_mem_filter (List.mem_reverse.mp h1)))
            · exact hs x (List.mem_cons_of_mem _ h2))
          hfalse (by
            intro v hvv
            rcases List.mem_cons.mp hvv with hveq | hvold
            · subst hveq
              refine ⟨ht, ?_⟩
              intro nb hnb
              by_cases hin : (v :: visited).contains nb
              · exact Or.inl (List.mem_of_elem_eq_true hin)
              · have hfin : (v :: visited).contains nb = false := by
                  cases hc2 : (v :: visited).contains nb
                  · rfl
                  · exact absurd hc2 hin
                refine Or.inr (List.mem_append_left _ ?_)
                rw [List.mem_reverse]
                refine List.mem_filter.mpr ⟨hnb, ?_⟩
                have hnmem : nb ∉ (v :: visited) :=
                  fun hcon => hin (List.elem_eq_true_of_mem hcon)
                simpa using hnmem
            · refine ⟨(hvis v hvold).1, ?_⟩
              intro nb hnb
              rcases (hvis v hvold).2 nb hnb with h | h
              · exact Or.inl (List.mem_cons_of_mem _ h)
              · rcases List.mem_cons.mp h with h | h
                · subst h
                  exact Or.inl (List.mem_cons_self _ _)
                · exact Or.inr (List.mem_append_right _ h))
        intro x hx hreach
        rcases hx with hx | hx
        · rcases List.mem_cons.mp hx with h | h
          · subst h
            exact ih x (Or.inr (List.mem_cons_self _ _)) hreach
          · exact ih x (Or.inl (List.mem_append_right _ h)) hreach
        · exact ih x (Or.inr (List.mem_cons_of_mem _ hx)) hreach
termination_by ((univ.toFinset \ visited.toFinset).card, stack.length)
decreasing_by
  · apply Prod.Lex.right
    subst_vars
    simp only [List.length_cons]
    omega
  · apply Prod.Lex.left
    apply Finset.card_lt_card
    constructor
    · intro a ha
      simp only [Finset.mem_sdiff, List.mem_toFinset] at ha ⊢
      exact ⟨ha.1, fun hcon => ha.2 (List.mem_cons_of_mem _ hcon)⟩
    · intro hsub
      have hcur : current ∈ univ.toFinset \ visited.toFinset := by
        simp only [Finset.mem_sdiff, List.mem_toFinset]
        exact ⟨hs current (List.mem_cons_self _ _), hv⟩
      have hmem := hsub hcur
      simp only [Finset.mem_sdiff, List.mem_toFinset] at hmem
      exact hmem.2 (List.mem_cons_self _ _)

/-- The cycle check fires on every unit one of whose declared dependencies
is the unit itself or reaches the unit through the stored adjacency edges. -/
theorem would_create_cycle_of_reach (g : DependencyGraph) (id0 : String)
    (deps : List String)
    (h : ∃ d ∈ deps, d = id0 ∨ Relation.ReflTransGen (stepRel g.adjacency_list) d id0) :
    would_create_cycle g id0 deps = true := by
  unfold would_create_cycle
  by_cases hc : deps.contains id0
  · rw [if_pos hc]
  · rw [if_neg hc]
    obtain ⟨d, hd, hcase⟩ := h
    rcases hcase with heq | hreach
    · exact absurd (List.elem_eq_true_of_mem (heq ▸ hd)) hc
    · by_contra hfalse
      rw [Bool.not_eq_true] at hfalse
      exact dfsCycle_false_no_reach g.adjacency_list id0 _ _ [] deps.reverse _ hfalse
        (by intro v hv; exact absurd hv (List.not_mem_nil v))
        d (Or.inl (List.mem_reverse.mpr hd)) hreach

/-- C6: for every graph state, inserting a unit whose declared
dependencies include its own identifier — directly, or transitively by
reaching it through the existing edges — fails with the
circular-dependency error, and the returned graph state is exactly the
original one (no partial insertion). -/
theorem C6_add_node_rejects_cycle (g : DependencyGraph) (node : DependencyNode)
    (h : ∃ d ∈ node.dependencies,
      d = node.id ∨ Relation.ReflTransGen (stepRel g.adjacency_list) d node.id) :
    add_node g node =
      (g, some ("Adding node " ++ node.id ++ " would create a circular dependency")) := by
  unfold add_node
  rw [would_create_cycle_of_reach g node.id node.dependencies h]
  rfl

/-- Witness for C6: inserting unit b (depending on a) into the graph
whose stored unit a already depends on b is rejected with the graph
unchanged. -/
theorem C6_witness :
    add_node gPending nodeBCycle =
      (gPending,
       some ("Adding node " ++ nodeBCycle.id ++ " would create a circular dependency")) :=
  C6_add_node_rejects_cycle gPending nodeBCycle
    ⟨"a", by decide, Or.inr (Relation.ReflTransGen.single (by decide))⟩

/-! ## Evaluation theorems for the remaining claims -/

/-- C1 (code bug): the in-degree pass of `topological_sort`
(dag.rs:125-129) increments the counter of the listed **dependency**,
while the reduction pass (dag.rs:143-150) decrements the counters of an
emitted node's **dependents**; the two passes are oriented oppositely, so
on the acyclic two-unit chain built by `add_node` (a without
dependencies, then b depending on a) the counters start as a ↦ 1, b ↦ 0,
only b is ever emitted (it has no reverse-adjacency entry to decrement),
and the sort reports the cycle error on a cycle-free graph.  The outcome
cannot depend on the Rust hash-iteration order: b is the only node with
counter zero at any point of the run. -/
theorem C1_topological_sort_fails_on_acyclic_chain :
    (add_node DependencyGraph.new nodeA).2 = none ∧
      (add_node gA nodeB).2 = none ∧
      topological_sort gAB = Except.error "Circular dependency detected in graph" := by
  refine ⟨?_, ?_, ?_⟩
  · simp [add_node, would_create_cycle, nodeA, DependencyGraph.new, dfsCycle, adjTargets]
  · simp [add_node, would_create_cycle, nodeA, nodeB, gA, DependencyGraph.new, dfsCycle,
      adjTargets, alistLookup, alistInsert, alistPush]
  · have hg : gAB = gABLit := by
      simp [gAB, gA, gABLit, add_node, would_create_cycle, nodeA, nodeB,
        DependencyGraph.new, dfsCycle, adjTargets, alistLookup, alistInsert, alistPush]
    rw [hg]
    rfl

/-- C9 (code bug): in `analyze_ast` the else-if at sandbox.rs:334-337
sets `found_other` and breaks on any non-blank non-comment line —
including a following def/class header — so the def/class break at
sandbox.rs:338-340 is unreachable and a pass-only function followed by
another definition is not flagged: the two-definition file below yields
no findings at all and passes validation.  The same pass-only definition
with nothing after it is flagged (third conjunct), demonstrating the
missing finding is specific to a following definition. -/
theorem C9_empty_body_not_flagged_before_next_def :
    (validate "def f():\n    pass\ndef g():\n    return 1" "python").errors = [] ∧
      (validate "def f():\n    pass\ndef g():\n    return 1" "python").passed = true ∧
      analyze_ast "def f():\n    pass" "python" =
        [{ severity := .Fatal,
           message := "Function contains only " ++ sq ++ "pass" ++ sq ++ " statement",
           file := none, line := some 1, column := none,
           error_type := .EmptyBlock }] := by
  refine ⟨?_, ?_, ?_⟩ <;> rfl

/-- C4 (code bug): on a repair-loop failure the Rust `continue`
(orchestrator.rs:91) skips the `librarian.index_file` call at
orchestrator.rs:107-112, so a unit failing with the max-retries error is
never indexed.  In the three-unit scenario (independent python units
A, B, C in that key order; B's candidate carries a placeholder) the
pipeline records failure messages for B and for C — both units after the
first are still attempted — yet the librarian index and the produced
files contain only unit A.  (C's failure also exhibits the shared,
never-reset reflexion counter: its run starts beyond the budget.) -/
theorem C4_failed_unit_not_indexed :
    (orchestrator_execute dag3 gen3 2).map
        (fun p => (p.1.errors, p.1.generated_files.map (fun f => f.path),
          p.2.libIndex.map (fun e => e.path))) =
      Except.ok
        (["Failed to repair B: Max retries (2) exceeded. Failed to repair code.",
          "Failed to repair C: Max retries (2) exceeded. Failed to repair code."],
         ["a.py"], ["a.py"]) := by
  have htopo : topological_sort dag3 = Except.ok ["A", "B", "C"] := by rfl
  have hv1 : validate "x = 1" "python" = ⟨true, [], [], none, none⟩ := by rfl
  have hv2 : (validate "TODO" "python").passed = false := by rfl
  simp only [orchestrator_execute, htopo]
  simp [List.foldlM, orchStep, alistLookup, dag3, gen3, mkUnit, moduleLang,
    get_reachable_context, ReflexionLoop.execute, ReflexionLoop.new, executeLoop,
    hv1, hv2, orchestratorRepair, emptyIface, bind, Except.bind, Except.map]
  rfl

end Deoxys
